import Mathlib

namespace color

/-!
Shallow embedding of `pyopg/color.py`: the SGR (Select Graphic Rendition)
escape-sequence builder.  The Python class `Seq` is a `bytes` subclass, so a
constructed object is exactly an ordered list of byte values (naturals below
256).  Construction `Seq(*codes)` runs `bytes.__new__(cls, map(int, codes))`:
`int(v)` fails for values that do not convert to an integer, and `bytes`
validation fails when an integer is outside `[0, 256)`.  We model a supplied
code as either an integer or a non-convertible value, and construction as a
function into `Option`.
-/

/-- A value supplied as an SGR code to `Seq(...)`: either it converts to an
integer (`int(v)` succeeds, yielding `i`) or it does not. -/
inductive PyVal where
  | pyInt (i : Int)
  | nonInt
deriving DecidableEq, Repr

/-- Conversion `int(v)` as used in `map(int, codes)` inside `Seq.__new__`. -/
def PyVal.toIntOpt : PyVal → Option Int
  | .pyInt i => some i
  | .nonInt => none

/-- The `Seq` class of `color.py`: a `bytes` subclass, i.e. an ordered,
immutable list of byte values.  Iterating the object yields its codes. -/
structure Seq where
  codes : List Nat
deriving DecidableEq, Repr

/-- Class attribute `Seq.csi_starter = "\x1b["`. -/
def Seq.csi_starter : String := "\x1b["

/-- Class attribute `Seq.csi_ender = "m"`. -/
def Seq.csi_ender : String := "m"

/-- Class attribute `Seq.csi_resetter = csi_starter + csi_ender`. -/
def Seq.csi_resetter : String := Seq.csi_starter ++ Seq.csi_ender

/-- Implements `map(int, codes)`: converts each supplied value with `int`,
failing as soon as one value is not convertible. -/
def intsOfCodes : List PyVal → Option (List Int)
  | [] => some []
  | v :: vs =>
    match v.toIntOpt, intsOfCodes vs with
    | some i, some is => some (i :: is)
    | _, _ => none

/-- Constructor `Seq.__new__(cls, *codes)`: `bytes.__new__(cls, map(int, codes))`.
`int` conversion fails on non-convertible values; `bytes` construction fails
when any integer is outside `0 ≤ x < 256`. -/
def Seq.new (codes : List PyVal) : Option Seq :=
  match intsOfCodes codes with
  | none => none
  | some ints =>
    if ints.all (fun i => 0 ≤ i && i < 256) then some ⟨ints.map Int.toNat⟩
    else none

/-- Property `Seq.csi_attributes`: `';'.join(map(str, self))`. -/
def Seq.csi_attributes (s : Seq) : String :=
  String.intercalate ";" (s.codes.map toString)

/-- Property `Seq.csi_seq`: `f"{self.csi_starter}{self.csi_attributes}{self.csi_ender}"`. -/
def Seq.csi_seq (s : Seq) : String :=
  Seq.csi_starter ++ s.csi_attributes ++ Seq.csi_ender

/-- Method `Seq.render(self, text, reset=True)`:
`f"{self.csi_seq}{text}{self.csi_resetter if reset else ''}"`. -/
def Seq.render (s : Seq) (text : String) (reset : Bool) : String :=
  s.csi_seq ++ text ++ (if reset then Seq.csi_resetter else "")

/-- Method `Seq.__call__(self, *t, **d)`: `self.render(*t, **d)`. -/
def Seq.call (s : Seq) (text : String) (reset : Bool) : String :=
  s.render text reset

/-- Method `Seq.__str__`: `self.csi_seq`. -/
def Seq.str (s : Seq) : String :=
  s.csi_seq

/-- An element of `self` (a `bytes`) iterated back as a Python value: a
byte value is an `int`. -/
def Seq.pyCodes (s : Seq) : List PyVal :=
  s.codes.map (fun n : Nat => PyVal.pyInt (n : Int))

/-- Method `Seq.__add__(self, other)`: `self.__class__(*itertools.chain(self, other))`.
`other` is any iterable of Python values. -/
def Seq.add (s : Seq) (other : List PyVal) : Option Seq :=
  Seq.new (s.pyCodes ++ other)

/-- Method `Seq.__radd__(self, other)`: `self.__class__(*itertools.chain(other, self))`. -/
def Seq.radd (s : Seq) (other : List PyVal) : Option Seq :=
  Seq.new (other ++ s.pyCodes)

/-- Python `a + b` for two `Seq` objects: dispatches to `Seq.__add__(a, b)` with `b`
iterated as its codes. -/
def Seq.concat (a b : Seq) : Option Seq :=
  a.add b.pyCodes

/-- The invariant every validly constructed `Seq` satisfies: all contained
codes are byte values. -/
def Seq.Valid (s : Seq) : Prop :=
  ∀ c ∈ s.codes, c < 256

instance (s : Seq) : Decidable s.Valid :=
  List.decidableBAll _ s.codes

/-- The `STY` enumeration (SGR styles), as its ordered (name, value) pairs. -/
def STY : List (String × Nat) :=
  [("RESET", 0), ("BOLD", 1), ("DIM", 2), ("ITALIC", 3), ("UNDER", 4),
   ("BLINK", 5), ("RAPID", 6), ("INVERT", 7), ("HIDE", 8), ("CROSS", 9)]

/-- The `FG` enumeration (SGR foregrounds), as its ordered (name, value) pairs. -/
def FG : List (String × Nat) :=
  [("DEFAULT", 39),
   ("BLACK", 30), ("RED", 31), ("GREEN", 32), ("YELLOW", 33),
   ("BLUE", 34), ("MAGENTA", 35), ("CYAN", 36), ("WHITE", 37),
   ("B_BLACK", 90), ("B_RED", 91), ("B_GREEN", 92), ("B_YELLOW", 93),
   ("B_BLUE", 94), ("B_MAGENTA", 95), ("B_CYAN", 96), ("B_WHITE", 97)]

/-- The `BG` enumeration: `EnumCodes('BG', ((each.name, each.value+10) for each in FG))`. -/
def BG : List (String × Nat) :=
  FG.map (fun p => (p.1, p.2 + 10))

/-- Validation in `EnumCodes.__init__`: every member value is in `range(256)`. -/
def enumCodesOk (l : List (String × Nat)) : Prop :=
  ∀ p ∈ l, p.2 < 256

instance (l : List (String × Nat)) : Decidable (enumCodesOk l) :=
  List.decidableBAll _ l

/-! ### Helper lemmas -/

/-- Conversion `str(i)` for a nonnegative Python int agrees with the decimal
string of the corresponding byte value. -/
lemma toString_int_toNat (c : Int) (h : 0 ≤ c) : toString c = toString c.toNat := by
  obtain ⟨n, rfl⟩ := Int.eq_ofNat_of_zero_le h
  rfl

lemma intsOfCodes_map_pyInt (cs : List Int) :
    intsOfCodes (cs.map PyVal.pyInt) = some cs := by
  induction cs with
  | nil => rfl
  | cons c cs ih => simp [intsOfCodes, PyVal.toIntOpt, ih]

/-- Construction from in-range integers succeeds and keeps the codes in order. -/
lemma seq_new_map_pyInt (cs : List Int) (h : ∀ c ∈ cs, 0 ≤ c ∧ c < 256) :
    Seq.new (cs.map PyVal.pyInt) = some ⟨cs.map Int.toNat⟩ := by
  have hall : cs.all (fun i => 0 ≤ i && i < 256) = true := by
    rw [List.all_eq_true]
    intro i hi
    have hx := h i hi
    simp [hx.1, hx.2]
  simp [Seq.new, intsOfCodes_map_pyInt, hall]

/-- Construction from in-range byte values succeeds and returns them verbatim. -/
lemma seq_new_natCodes (ns : List Nat) (h : ∀ n ∈ ns, n < 256) :
    Seq.new (ns.map (fun n : Nat => PyVal.pyInt (n : Int))) = some ⟨ns⟩ := by
  have h2 : ∀ c ∈ ns.map (fun n : Nat => (n : Int)), 0 ≤ c ∧ c < 256 := by
    intro c hc
    rw [List.mem_map] at hc
    obtain ⟨n, hn, hcn⟩ := hc
    have hxn := h n hn
    omega
  have hmain := seq_new_map_pyInt (ns.map (fun n : Nat => (n : Int))) h2
  have hmaps : ns.map (fun n : Nat => PyVal.pyInt (n : Int)) =
      (ns.map (fun n : Nat => (n : Int))).map PyVal.pyInt := by
    rw [List.map_map]
    rfl
  have h3 : (ns.map (fun n : Nat => (n : Int))).map Int.toNat = ns := by
    rw [List.map_map]
    have hco : (Int.toNat ∘ fun n : Nat => (n : Int)) = id := by
      funext n
      simp
    rw [hco, List.map_id]
  rw [hmaps, hmain, h3]

lemma map_natPy_eq (ns : List Nat) :
    ns.map (fun n : Nat => PyVal.pyInt (n : Int)) =
      (ns.map (fun n : Nat => (n : Int))).map PyVal.pyInt := by
  rw [List.map_map]
  rfl

lemma map_toNat_cancel (ns : List Nat) :
    (ns.map (fun n : Nat => (n : Int))).map Int.toNat = ns := by
  rw [List.map_map]
  have hco : (Int.toNat ∘ fun n : Nat => (n : Int)) = id := by
    funext n
    simp
  rw [hco, List.map_id]

/-- Concatenating two valid `Seq` objects through `__add__` succeeds and
appends the code lists in order. -/
lemma seq_concat_eq (a b : Seq) (ha : a.Valid) (hb : b.Valid) :
    Seq.concat a b = some ⟨a.codes ++ b.codes⟩ := by
  unfold Seq.concat Seq.add Seq.pyCodes
  rw [← List.map_append]
  refine seq_new_natCodes _ ?_
  intro n hn
  rcases List.mem_append.mp hn with hmem | hmem
  · exact ha n hmem
  · exact hb n hmem

lemma seq_append_valid (a b : Seq) (ha : a.Valid) (hb : b.Valid) :
    (Seq.mk (a.codes ++ b.codes)).Valid := by
  intro n hn
  rcases List.mem_append.mp hn with hmem | hmem
  · exact ha n hmem
  · exact hb n hmem

/-- Construction fails precisely when some supplied value fails `int`
conversion or converts to an integer outside `[0, 256)`. -/
lemma seq_new_eq_none_iff (codes : List PyVal) :
    Seq.new codes = none ↔
      ∃ v ∈ codes,
        v.toIntOpt = none ∨ ∃ i, v.toIntOpt = some i ∧ (i < 0 ∨ 256 ≤ i) := by
  induction codes with
  | nil => simp [Seq.new, intsOfCodes]
  | cons v vs ih =>
    cases v with
    | nonInt =>
      simp [Seq.new, intsOfCodes, PyVal.toIntOpt]
    | pyInt i =>
      cases hm : intsOfCodes vs with
      | none =>
        have hvs : Seq.new vs = none := by simp [Seq.new, hm]
        obtain ⟨w, hw, hbad⟩ := (ih.mp hvs)
        have hcons : intsOfCodes (PyVal.pyInt i :: vs) = none := by
          simp [intsOfCodes, PyVal.toIntOpt, hm]
        constructor
        · intro _
          exact ⟨w, List.mem_cons_of_mem _ hw, hbad⟩
        · intro _
          simp [Seq.new, hcons]
      | some ints =>
        have hvs : Seq.new vs = none ↔ ints.all (fun i => 0 ≤ i && i < 256) = false := by
          cases hall : ints.all (fun i => 0 ≤ i && i < 256) <;>
            simp [Seq.new, hm, hall]
        have hcons : intsOfCodes (PyVal.pyInt i :: vs) = some (i :: ints) := by
          simp [intsOfCodes, PyVal.toIntOpt, hm]
        rw [Seq.new, hcons]
        simp only [List.all_cons]
        constructor
        · intro hnone
          by_cases hgood : (0 ≤ i ∧ i < 256)
          · have hfalse : ints.all (fun i => 0 ≤ i && i < 256) = false := by
              by_contra hne
              have htrue : ints.all (fun i => 0 ≤ i && i < 256) = true :=
                eq_true_of_ne_false hne
              simp [htrue, hgood.1, hgood.2] at hnone
            obtain ⟨w, hw, hbad⟩ := ih.mp (hvs.mpr hfalse)
            exact ⟨w, List.mem_cons_of_mem _ hw, hbad⟩
          · refine ⟨.pyInt i, List.mem_cons_self _ _, Or.inr ⟨i, rfl, ?_⟩⟩
            omega
        · intro hbadex
          obtain ⟨w, hw, hbad⟩ := hbadex
          rcases List.mem_cons.mp hw with hwv | hwvs
          · subst hwv
            rcases hbad with hnone | ⟨j, hj, hrange⟩
            · simp [PyVal.toIntOpt] at hnone
            · have hji : i = j := by
                simpa [PyVal.toIntOpt] using hj
              subst hji
              have h1 : (decide (0 ≤ i) && decide (i < 256)) = false := by
                rcases hrange with hlt | hge
                · simp [show ¬ (0 ≤ i) by omega]
                · simp [show ¬ (i < 256) by omega]
              simp [h1]
          · have hfalse := hvs.mp (ih.mpr ⟨w, hwvs, hbad⟩)
            simp [hfalse]

/-! ### Claim theorems -/

/-- Claim C1: For every list of valid codes (each an integer in `[0, 256)`), the
`csi_attributes` of the `Seq` constructed from them is the `;`-joined decimal
string of the codes in the original input order — no deduplication, reordering
or conflict filtering — and for the empty code list it is the empty string. -/
theorem C1_attributes_join (cs : List Int) (h : ∀ c ∈ cs, 0 ≤ c ∧ c < 256) :
    ∃ s : Seq, Seq.new (cs.map PyVal.pyInt) = some s ∧
      s.csi_attributes = String.intercalate ";" (cs.map toString) ∧
      (cs = [] → s.csi_attributes = "") := by
  refine ⟨⟨cs.map Int.toNat⟩, seq_new_map_pyInt cs h, ?_, ?_⟩
  · unfold Seq.csi_attributes
    rw [List.map_map]
    congr 1
    apply List.map_congr_left
    intro c hc
    exact (toString_int_toNat c (h c hc).1).symm
  · intro hnil
    subst hnil
    rfl

/-- Witness for C1 at the concrete code list `[1, 4, 31]`. -/
theorem C1_attributes_join_witness :
    ∃ s : Seq, Seq.new (([1, 4, 31] : List Int).map PyVal.pyInt) = some s ∧
      s.csi_attributes = String.intercalate ";" (([1, 4, 31] : List Int).map toString) ∧
      (([1, 4, 31] : List Int) = [] → s.csi_attributes = "") :=
  C1_attributes_join [1, 4, 31] (by decide)

/-- Claim C2: Construction fails exactly when some supplied code does not convert to
an integer or its integer value falls outside `[0, 256)` — in particular for
the code values `256` and `-1` — while `csi_attributes`, `csi_seq`, `render`
and string conversion are total on any constructed `Seq`. -/
theorem C2_invalid_code_error :
    (∀ codes : List PyVal,
        Seq.new codes = none ↔
          ∃ v ∈ codes,
            v.toIntOpt = none ∨ ∃ i, v.toIntOpt = some i ∧ (i < 0 ∨ 256 ≤ i)) ∧
    Seq.new [PyVal.pyInt 256] = none ∧
    Seq.new [PyVal.pyInt (-1)] = none ∧
    (∀ (s : Seq) (t : String) (r : Bool),
      ∃ w x y z : String,
        s.csi_attributes = w ∧ s.csi_seq = x ∧ s.render t r = y ∧ s.str = z) := by
  refine ⟨seq_new_eq_none_iff, by decide, by decide, ?_⟩
  intro s t r
  exact ⟨_, _, _, _, rfl, rfl, rfl, rfl⟩

/-- Claim C3: For every `Seq` and text, rendering with reset enabled returns
`csi_seq + text + "\x1b[m"` and rendering with reset disabled returns
`csi_seq + text` with no trailing reset. -/
theorem C3_render_reset (s : Seq) (t : String) :
    s.render t true = s.csi_seq ++ t ++ "\x1b[m" ∧
    s.render t false = s.csi_seq ++ t := by
  constructor
  · rfl
  · show s.csi_seq ++ t ++ "" = s.csi_seq ++ t
    rw [String.append_empty]

/-- Claim C4: Concatenation of two valid `Seq` objects is a new `Seq` holding the
first operand's codes followed by the second's, it is associative but not
commutative, and `Seq(1,4) + Seq(31)` has attribute string `"1;4;31"`,
identical to `Seq(1,4,31)`. -/
theorem C4_concat (a b c : Seq) (ha : a.Valid) (hb : b.Valid) (hc : c.Valid) :
    Seq.concat a b = some ⟨a.codes ++ b.codes⟩ ∧
    ((Seq.concat a b).bind (fun ab => Seq.concat ab c) =
      (Seq.concat b c).bind (fun bc => Seq.concat a bc)) ∧
    (¬ ∀ (x y : Seq), x.Valid → y.Valid → Seq.concat x y = Seq.concat y x) ∧
    Seq.concat ⟨[1, 4]⟩ ⟨[31]⟩ = some ⟨[1, 4, 31]⟩ ∧
    Seq.new [PyVal.pyInt 1, PyVal.pyInt 4, PyVal.pyInt 31] = some ⟨[1, 4, 31]⟩ ∧
    (Seq.mk [1, 4, 31]).csi_attributes = "1;4;31" := by
  refine ⟨seq_concat_eq a b ha hb, ?_, ?_, by decide, by decide, by decide⟩
  · rw [seq_concat_eq a b ha hb, seq_concat_eq b c hb hc]
    simp only [Option.some_bind]
    rw [seq_concat_eq ⟨a.codes ++ b.codes⟩ c (seq_append_valid a b ha hb) hc,
      seq_concat_eq a ⟨b.codes ++ c.codes⟩ ha (seq_append_valid b c hb hc)]
    rw [List.append_assoc]
  · intro hcomm
    have h1 := hcomm ⟨[1]⟩ ⟨[2]⟩ (by decide) (by decide)
    have h2 : Seq.concat ⟨[1]⟩ ⟨[2]⟩ = some ⟨[1, 2]⟩ := by decide
    have h3 : Seq.concat ⟨[2]⟩ ⟨[1]⟩ = some ⟨[2, 1]⟩ := by decide
    rw [h2, h3] at h1
    exact absurd h1 (by decide)

/-- Witness for C4 at the concrete sequences `Seq(1,4)`, `Seq(31)`, `Seq(2)`. -/
theorem C4_concat_witness :
    Seq.concat ⟨[1, 4]⟩ ⟨[31]⟩ = some ⟨[1, 4] ++ [31]⟩ ∧
    ((Seq.concat ⟨[1, 4]⟩ ⟨[31]⟩).bind (fun ab => Seq.concat ab ⟨[2]⟩) =
      (Seq.concat ⟨[31]⟩ ⟨[2]⟩).bind (fun bc => Seq.concat ⟨[1, 4]⟩ bc)) ∧
    (¬ ∀ (x y : Seq), x.Valid → y.Valid → Seq.concat x y = Seq.concat y x) ∧
    Seq.concat ⟨[1, 4]⟩ ⟨[31]⟩ = some ⟨[1, 4, 31]⟩ ∧
    Seq.new [PyVal.pyInt 1, PyVal.pyInt 4, PyVal.pyInt 31] = some ⟨[1, 4, 31]⟩ ∧
    (Seq.mk [1, 4, 31]).csi_attributes = "1;4;31" :=
  C4_concat ⟨[1, 4]⟩ ⟨[31]⟩ ⟨[2]⟩ (by decide) (by decide) (by decide)

/-- Claim C5: For every `Seq`, `csi_seq` is exactly `"\x1b[" + csi_attributes + "m"`,
string conversion returns the same text, and `Seq(1,4,31)` yields
`"\x1b[1;4;31m"`. -/
theorem C5_escape_sequence (s : Seq) :
    s.csi_seq = "\x1b[" ++ s.csi_attributes ++ "m" ∧
    s.str = s.csi_seq ∧
    Seq.new [PyVal.pyInt 1, PyVal.pyInt 4, PyVal.pyInt 31] = some ⟨[1, 4, 31]⟩ ∧
    (Seq.mk [1, 4, 31]).csi_seq = "\x1b[1;4;31m" :=
  ⟨rfl, rfl, by decide, by decide⟩

/-- Claim C6: Construction with no arguments succeeds, the resulting escape sequence
is the canonical reset `"\x1b[m"`, which is the class resetter literal, and
rendering with reset enabled appends exactly that literal. -/
theorem C6_empty_reset :
    Seq.new [] = some ⟨[]⟩ ∧
    (Seq.mk []).csi_seq = "\x1b[m" ∧
    Seq.csi_resetter = "\x1b[m" ∧
    ∀ (s : Seq) (t : String), s.render t true = s.render t false ++ Seq.csi_resetter := by
  refine ⟨by decide, by decide, by decide, ?_⟩
  intro s t
  show s.csi_seq ++ t ++ Seq.csi_resetter = (s.csi_seq ++ t ++ "") ++ Seq.csi_resetter
  rw [String.append_empty]

/-- Claim C7: Every named foreground code has a background code of the same name
with value exactly `+10`; the foreground values are `30–37, 39, 90–97`, the
background values are `40–47, 49, 100–107`, and all pass the `range(256)`
validation of `EnumCodes.__init__`. -/
theorem C7_bg_eq_fg_plus_ten :
    (∀ p ∈ FG, (p.1, p.2 + 10) ∈ BG) ∧
    (∀ q ∈ BG, ∃ p ∈ FG, q = (p.1, p.2 + 10)) ∧
    FG.map Prod.snd = [39, 30, 31, 32, 33, 34, 35, 36, 37,
      90, 91, 92, 93, 94, 95, 96, 97] ∧
    BG.map Prod.snd = [49, 40, 41, 42, 43, 44, 45, 46, 47,
      100, 101, 102, 103, 104, 105, 106, 107] ∧
    enumCodesOk FG ∧ enumCodesOk BG := by
  refine ⟨?_, ?_, by decide, by decide, by decide, by decide⟩
  · intro p hp
    unfold BG
    exact List.mem_map_of_mem _ hp
  · intro q hq
    unfold BG at hq
    obtain ⟨p, hp, hq2⟩ := List.mem_map.mp hq
    exact ⟨p, hp, hq2.symm⟩

/-- Claim C8: A `Seq` is nothing but its code list, and every operation is a pure
function of that list: sequences with equal code lists are equal objects and
all operations — attribute string, escape sequence, rendering with either
reset flag, calling, string conversion, and both concatenation directions —
yield equal results on them. -/
theorem C8_immutable_deterministic (s₁ s₂ : Seq) (h : s₁.codes = s₂.codes) :
    s₁ = s₂ ∧
    s₁.csi_attributes = s₂.csi_attributes ∧
    s₁.csi_seq = s₂.csi_seq ∧
    (∀ (t : String) (r : Bool), s₁.render t r = s₂.render t r) ∧
    (∀ (t : String) (r : Bool), s₁.call t r = s₂.call t r) ∧
    s₁.str = s₂.str ∧
    (∀ other : List PyVal, s₁.add other = s₂.add other ∧ s₁.radd other = s₂.radd other) ∧
    (∀ b : Seq, Seq.concat s₁ b = Seq.concat s₂ b ∧ Seq.concat b s₁ = Seq.concat b s₂) := by
  have hs : s₁ = s₂ := by
    cases s₁
    cases s₂
    cases h
    rfl
  subst hs
  exact ⟨rfl, rfl, rfl, fun _ _ => rfl, fun _ _ => rfl, rfl,
    fun _ => ⟨rfl, rfl⟩, fun _ => ⟨rfl, rfl⟩⟩

/-- Witness for C8 at two structurally equal concrete sequences. -/
theorem C8_immutable_deterministic_witness :
    Seq.mk [1, 4, 31] = Seq.mk [1, 4, 31] ∧
    (Seq.mk [1, 4, 31]).csi_attributes = (Seq.mk [1, 4, 31]).csi_attributes ∧
    (Seq.mk [1, 4, 31]).csi_seq = (Seq.mk [1, 4, 31]).csi_seq ∧
    (∀ (t : String) (r : Bool),
      (Seq.mk [1, 4, 31]).render t r = (Seq.mk [1, 4, 31]).render t r) ∧
    (∀ (t : String) (r : Bool),
      (Seq.mk [1, 4, 31]).call t r = (Seq.mk [1, 4, 31]).call t r) ∧
    (Seq.mk [1, 4, 31]).str = (Seq.mk [1, 4, 31]).str ∧
    (∀ other : List PyVal,
      (Seq.mk [1, 4, 31]).add other = (Seq.mk [1, 4, 31]).add other ∧
      (Seq.mk [1, 4, 31]).radd other = (Seq.mk [1, 4, 31]).radd other) ∧
    (∀ b : Seq,
      Seq.concat (Seq.mk [1, 4, 31]) b = Seq.concat (Seq.mk [1, 4, 31]) b ∧
      Seq.concat b (Seq.mk [1, 4, 31]) = Seq.concat b (Seq.mk [1, 4, 31])) :=
  C8_immutable_deterministic (Seq.mk [1, 4, 31]) (Seq.mk [1, 4, 31]) rfl

/-- Claim C9: Calling a `Seq` object directly is an alias of `render`: it returns
exactly the same string for every text and reset flag. -/
theorem C9_call_is_render (s : Seq) (t : String) (r : Bool) :
    s.call t r = s.render t r :=
  rfl

/-- Claim C10: Adding a plain iterable of valid codes on either side of a valid
`Seq` succeeds and yields a `Seq` whose codes are the ordered concatenation of
the two operands' codes. -/
theorem C10_add_radd_iterable (s : Seq) (t : List Int)
    (hs : s.Valid) (ht : ∀ c ∈ t, 0 ≤ c ∧ c < 256) :
    s.add (t.map PyVal.pyInt) = some ⟨s.codes ++ t.map Int.toNat⟩ ∧
    s.radd (t.map PyVal.pyInt) = some ⟨t.map Int.toNat ++ s.codes⟩ := by
  have hall : ∀ c ∈ s.codes.map (fun n : Nat => (n : Int)) ++ t, 0 ≤ c ∧ c < 256 := by
    intro c hcmem
    rcases List.mem_append.mp hcmem with hmem | hmem
    · rw [List.mem_map] at hmem
      obtain ⟨n, hn, hcn⟩ := hmem
      have := hs n hn
      omega
    · exact ht c hmem
  have hall2 : ∀ c ∈ t ++ s.codes.map (fun n : Nat => (n : Int)), 0 ≤ c ∧ c < 256 := by
    intro c hcmem
    rcases List.mem_append.mp hcmem with hmem | hmem
    · exact ht c hmem
    · rw [List.mem_map] at hmem
      obtain ⟨n, hn, hcn⟩ := hmem
      have := hs n hn
      omega
  constructor
  · unfold Seq.add Seq.pyCodes
    rw [map_natPy_eq, ← List.map_append]
    rw [seq_new_map_pyInt _ hall]
    rw [List.map_append, map_toNat_cancel]
  · unfold Seq.radd Seq.pyCodes
    rw [map_natPy_eq, ← List.map_append]
    rw [seq_new_map_pyInt _ hall2]
    rw [List.map_append, map_toNat_cancel]

/-- Witness for C10 at the sequence `Seq(1,4)` and the iterable `[31, 2]`. -/
theorem C10_add_radd_iterable_witness :
    (Seq.mk [1, 4]).add (([31, 2] : List Int).map PyVal.pyInt) =
      some ⟨(Seq.mk [1, 4]).codes ++ ([31, 2] : List Int).map Int.toNat⟩ ∧
    (Seq.mk [1, 4]).radd (([31, 2] : List Int).map PyVal.pyInt) =
      some ⟨([31, 2] : List Int).map Int.toNat ++ (Seq.mk [1, 4]).codes⟩ :=
  C10_add_radd_iterable (Seq.mk [1, 4]) [31, 2] (by decide) (by decide)

end color
